import Mathlib

/- Verification development for the rpi-iaq-monitor repository.

Shallow embedding of the components the claims are about:
* SimpleI2CBus            (simple_i2c_bus.h / its .cpp implementation)
* EnhancedBSECScheduling  (the BSECScheduler class of the enhanced scheduling header)
* BSecProxy state/config callbacks (src/air_quality_service.cpp)
* HomeBridgeService       (src/homebridge_service.cpp)

Machine integers are modelled as Nat/Int with explicit reduction modulo
2^32 at the points where the C code performs uint32_t arithmetic.
-/

set_option maxRecDepth 4000

namespace IAQ

/-- Modulus of C uint32_t arithmetic. -/
def UINT32_MOD : Nat := 4294967296

/-! ## SimpleI2CBus -/

/-- From simple_i2c_bus.h: the maximum atomic transfer size of the bus
(address byte plus payload), `#define I2C_BUS_MAX_BUFFER_SIZE 64`. -/
def I2C_BUS_MAX_BUFFER_SIZE : Nat := 64

/-- One device transaction actually submitted to the hardware bus.  The
claims distinguish "fails without touching the hardware" from failures of
real transactions, so every model operation also returns the list of
transactions it performed. -/
inductive HwEvent where
  | write (fd : Int) (bytes : List Nat)
  | writeByte (fd : Int) (b : Nat)
  | read (fd : Int) (len : Nat)
deriving DecidableEq

/-- Oracle for the kernel/hardware side of the syscalls the bus class uses:
whether each submitted I2C transaction succeeds, and what `open`/`ioctl`
yield for a device path and slave address (`none` models an open failure,
`some fd` a successfully obtained nonnegative descriptor). -/
structure Hw where
  writeOk : Int → List Nat → Bool
  writeByteOk : Int → Nat → Bool
  readOk : Int → Nat → Bool
  openFd : String → Nat → Option Nat

/-- The fields of the C++ class `SimpleI2CBus`: device path, slave address
and the bus file descriptor (`-1` when closed). -/
structure SimpleI2CBus where
  device : String
  slaveAddress : Nat
  busfd : Int
deriving DecidableEq

/-- `SimpleI2CBus::isOpened`: `return busfd != -1;`. -/
def SimpleI2CBus.isOpened (b : SimpleI2CBus) : Bool :=
  b.busfd != -1

/-- `SimpleI2CBus::closeI2CBus`: `close(busfd); busfd = -1;`. -/
def SimpleI2CBus.closeI2CBus (b : SimpleI2CBus) : SimpleI2CBus :=
  ⟨b.device, b.slaveAddress, -1⟩

/-- Descriptor invariant of the class: `busfd` is `-1` (initial value, and
the value `closeI2CBus` stores) or a nonnegative descriptor returned by a
successful `openI2CBus`.  Every operation of the model preserves it. -/
def SimpleI2CBus.wf (b : SimpleI2CBus) : Prop :=
  b.busfd = -1 ∨ 0 ≤ b.busfd

/-- POSIX `write` on the bus descriptor.  A negative descriptor is rejected
by the kernel before any device I/O happens (EBADF), hence no `HwEvent`.
On a valid descriptor the i2c-dev layer performs one atomic transaction:
it transfers the whole message (returning its length) or fails. -/
def sysWrite (hw : Hw) (fd : Int) (bytes : List Nat) : Int × List HwEvent :=
  if fd < 0 then (-1, [])
  else if hw.writeOk fd bytes then ((bytes.length : Int), [HwEvent.write fd bytes])
  else (-1, [HwEvent.write fd bytes])

/-- `i2c_smbus_write_byte` on the bus descriptor; same kernel-boundary rules
as `sysWrite`. -/
def sysWriteByte (hw : Hw) (fd : Int) (b : Nat) : Int × List HwEvent :=
  if fd < 0 then (-1, [])
  else if hw.writeByteOk fd b then (0, [HwEvent.writeByte fd b])
  else (-1, [HwEvent.writeByte fd b])

/-- POSIX `read` on the bus descriptor; an I2C data read transfers the
requested `len` bytes atomically or fails. -/
def sysRead (hw : Hw) (fd : Int) (len : Nat) : Int × List HwEvent :=
  if fd < 0 then (-1, [])
  else if hw.readOk fd len then ((len : Int), [HwEvent.read fd len])
  else (-1, [HwEvent.read fd len])

/-- Result of a bus operation: the C return value, the object state after
the call, and the device transactions performed. -/
structure BusResult where
  ret : Int
  bus : SimpleI2CBus
  io : List HwEvent
deriving DecidableEq

/-- `SimpleI2CBus::openI2CBus`: on `open`/`ioctl` failure returns `-1`
leaving the fields untouched (the local `busfd` shadows the member);
on success stores device, address and descriptor and returns the
descriptor. -/
def SimpleI2CBus.openI2CBus (b : SimpleI2CBus) (hw : Hw) (device : String)
    (slaveAddress : Nat) : Int × SimpleI2CBus :=
  match hw.openFd device slaveAddress with
  | none => (-1, b)
  | some fd => ((fd : Int), ⟨device, slaveAddress, (fd : Int)⟩)

/-- `SimpleI2CBus::writeData` (lines 76-102 of the implementation file):
if `busfd < 0` return `-1`; if `data_len + 1 > I2C_BUS_MAX_BUFFER_SIZE`
(uint32_t arithmetic) log, `closeI2CBus()` and return `-1`; otherwise build
`buffer = reg_addr :: payload` and `write(busfd, buffer, data_len + 1)`;
a negative syscall result closes the bus; the syscall result is returned.
`reg_data` is the payload pointed to by `reg_data_ptr`, whose length is the
uint32_t argument `data_len`. -/
def SimpleI2CBus.writeData (b : SimpleI2CBus) (hw : Hw) (reg_addr : Nat)
    (reg_data : List Nat) : BusResult :=
  if b.busfd < 0 then ⟨-1, b, []⟩
  else if (reg_data.length + 1) % UINT32_MOD > I2C_BUS_MAX_BUFFER_SIZE then
    ⟨-1, b.closeI2CBus, []⟩
  else
    let buffer := reg_addr :: reg_data
    let r := sysWrite hw b.busfd buffer
    if r.1 < 0 then ⟨r.1, b.closeI2CBus, r.2⟩
    else ⟨r.1, b, r.2⟩

/-- `SimpleI2CBus::readData` (lines 104-123): no open-state check; select
the register with `i2c_smbus_write_byte`, then `read` `data_len` bytes;
either half failing closes the bus and returns the negative result. -/
def SimpleI2CBus.readData (b : SimpleI2CBus) (hw : Hw) (reg_addr : Nat)
    (data_len : Nat) : BusResult :=
  let r1 := sysWriteByte hw b.busfd reg_addr
  if r1.1 < 0 then ⟨r1.1, b.closeI2CBus, r1.2⟩
  else
    let r2 := sysRead hw b.busfd data_len
    if r2.1 < 0 then ⟨r2.1, b.closeI2CBus, r1.2 ++ r2.2⟩
    else ⟨r2.1, b, r1.2 ++ r2.2⟩

/-! ## EnhancedBSECScheduling::BSECScheduler -/

namespace EnhancedBSECScheduling

/-- `static constexpr int64_t TIMING_VIOLATION_THRESHOLD_US = 1000` (1 ms
tolerance). -/
def TIMING_VIOLATION_THRESHOLD_US : Int := 1000

/-- `static constexpr int64_t MAX_TIMING_DRIFT_US = 10000` (10 ms drift
ceiling). -/
def MAX_TIMING_DRIFT_US : Int := 10000

/-- Mutable fields of the `BSECScheduler` class.  The two counters are
uint32_t in the source; increments are reduced modulo 2^32. -/
structure BSECScheduler where
  last_call_time_us : Int
  scheduling_start_time_us : Int
  timing_violation_count : Nat
  total_cycles : Nat
deriving DecidableEq

/-- `BSECScheduler::waitForNextCall(next_call_ns, sensor_id)`.  The current
monotonic time (`PrecisionTiming::now_us()`, a real-time effect) is passed
in as `now_us`.  Mirrors the source: `next_call_us = next_call_ns / 1000`
(C integer division truncates toward zero, as does `Int.tdiv`);
`delay_us = now_us - next_call_us`; if the delay exceeds the 1 ms tolerance
the violation counter is incremented and, when the delay also exceeds the
10 ms drift ceiling, `false` is returned to signal the caller to reset the
schedule, otherwise `true`; if the delay is within tolerance the function
sleeps until `next_call_us` (a real-time effect with no state change) and
returns `true`.  The `sensor_id` argument of the source is only used in log text
and is omitted here. -/
def BSECScheduler.waitForNextCall (st : BSECScheduler) (next_call_ns : Int)
    (now_us : Int) : Bool × BSECScheduler :=
  let next_call_us := Int.tdiv next_call_ns 1000
  let delay_us := now_us - next_call_us
  if delay_us > TIMING_VIOLATION_THRESHOLD_US then
    let st1 : BSECScheduler :=
      ⟨st.last_call_time_us, st.scheduling_start_time_us,
        (st.timing_violation_count + 1) % UINT32_MOD, st.total_cycles⟩
    if delay_us > MAX_TIMING_DRIFT_US then (false, st1)
    else (true, st1)
  else (true, st)

/-- `BSECScheduler::resetStats()`: clears both counters and restamps
`scheduling_start_time_us` with the current monotonic time. -/
def BSECScheduler.resetStats (st : BSECScheduler) (now_us : Int) :
    BSECScheduler :=
  ⟨st.last_call_time_us, now_us, 0, 0⟩

/-- Modelled from the spec: the acquisition loop that drives the scheduler
lives in the modified vendor integration file, which is not among the
repository sources provided; per the spec, when `waitForNextCall` signals
severe drift (returns `false`) the caller treats it as a scheduling reset
and the statistics are cleared (`resetStats`), while a `true` return
proceeds with the cycle unchanged.  The Bool produced is `false` exactly
when a severe-drift reset signal was emitted in this cycle. -/
def BSECScheduler.runCycle (st : BSECScheduler) (next_call_ns : Int)
    (now_us : Int) : Bool × BSECScheduler :=
  match st.waitForNextCall next_call_ns now_us with
  | (false, st1) => (false, st1.resetStats now_us)
  | (true, st1) => (true, st1)

end EnhancedBSECScheduling

/-! ## BSecProxy calibration-state and config callbacks
(src/air_quality_service.cpp) -/

namespace BSecProxy

/-- The on-disk/in-memory layout `BSECSerializedState`: a uint32 length
prefix `n_serialized_state` followed by the fixed-capacity payload region
`serialized_state` (capacity `BSEC_MAX_STATE_BLOB_SIZE`, a vendor constant
whose numeric value is not among the provided sources; the development is
parameterized by it as `cap`, with `serialized_state.length = cap` for
records produced by `bsec_state_save`). -/
structure BSECSerializedState where
  n_serialized_state : Nat
  serialized_state : List Nat
deriving DecidableEq

/-- The bytes that land in the payload region of the struct when
`memcpy(state.serialized_state, state_buffer, length)` runs: the first
`cap` bytes of the buffer; for a buffer shorter than `cap` the region
keeps its prior (uninitialized) contents, modelled as 0 -- a well-formed
load never reads past the length prefix, so their value is irrelevant to
every claim.  For a buffer longer than `cap` the C `memcpy` also writes
past the end of the struct (out of bounds); only the in-bounds bytes are
part of the record. -/
def structPayload (cap : Nat) (buf : List Nat) : List Nat :=
  buf.take cap ++ List.replicate (cap - buf.length) 0

/-- `BSecProxy::bsec_state_save(state_buffer, length)` (lines 177-194):
fills the struct (length prefix = the uint32 `length` argument, payload via
`memcpy`), creates the state directory if absent, and overwrites the state
file with the whole struct.  The function has no rejection branch of any
kind -- in particular no capacity check on `length` -- so the model, whose
`Option` result makes a rejected save (`none`) expressible, returns
`some` record unconditionally. -/
def bsec_state_save (cap : Nat) (state_buffer : List Nat) :
    Option BSECSerializedState :=
  some ⟨state_buffer.length % UINT32_MOD, structPayload cap state_buffer⟩

/-- `BSecProxy::bsec_state_load(state_buffer, n_buffer)` (lines 148-167):
if the state file does not exist, return 0 (the `none` case); otherwise
read the struct from the file and `memcpy` `n_serialized_state` bytes of
the payload region into the caller buffer, returning `n_serialized_state`.
The result pair is (bytes copied to `state_buffer`, returned count).  The
`n_buffer` capacity argument appears only in the signature of the source
function and is never used, exactly as here.  The function has no error
channel: its only output is the copied bytes and the count. -/
def bsec_state_load (file : Option BSECSerializedState) (n_buffer : Nat) :
    List Nat × Nat :=
  match file with
  | none => ([], 0)
  | some st => (st.serialized_state.take st.n_serialized_state,
      st.n_serialized_state)

/-- The fixed 492-byte configuration blob `bsec_config_iaq` from
`BSecProxy::bsec_config_load` (the "33v 3s 4d" IAQ configuration),
transcribed byte for byte. -/
def bsec_config_iaq : List Nat :=
  [
  0, 1, 6, 2, 61, 0, 0, 0, 0, 0, 0, 0, 212, 1, 0, 0, 56, 0, 1, 0, 0, 192, 
  168, 71, 64, 49, 119, 76, 0, 0, 97, 69, 0, 0, 97, 69, 10, 0, 3, 0, 0, 0, 
  96, 64, 23, 183, 209, 56, 43, 24, 149, 60, 140, 74, 106, 188, 43, 24, 149, 
  60, 216, 129, 243, 190, 151, 255, 80, 190, 216, 129, 243, 190, 8, 0, 2, 0, 
  0, 0, 72, 66, 16, 0, 3, 0, 10, 215, 163, 60, 10, 215, 35, 59, 10, 215, 35, 
  59, 13, 0, 5, 0, 0, 0, 0, 0, 100, 35, 41, 29, 86, 88, 0, 9, 0, 229, 208, 
  34, 62, 0, 0, 0, 0, 0, 0, 0, 0, 218, 27, 156, 62, 225, 11, 67, 64, 0, 0, 
  160, 64, 0, 0, 0, 0, 0, 0, 0, 0, 94, 75, 72, 189, 93, 254, 159, 64, 66, 62, 
  160, 191, 0, 0, 0, 0, 0, 0, 0, 0, 33, 31, 180, 190, 138, 176, 97, 64, 65, 
  241, 99, 190, 0, 0, 0, 0, 0, 0, 0, 0, 167, 121, 71, 61, 165, 189, 41, 192, 
  184, 30, 189, 64, 12, 0, 10, 0, 0, 0, 0, 0, 0, 0, 0, 0, 19, 1, 254, 0, 2, 
  1, 5, 48, 117, 100, 0, 44, 1, 112, 23, 151, 7, 132, 3, 197, 0, 92, 4, 144, 
  1, 64, 1, 64, 1, 144, 1, 48, 117, 48, 117, 48, 117, 48, 117, 100, 0, 100, 
  0, 100, 0, 48, 117, 48, 117, 48, 117, 100, 0, 100, 0, 48, 117, 48, 117, 
  100, 0, 100, 0, 100, 0, 100, 0, 48, 117, 48, 117, 48, 117, 100, 0, 100, 0, 
  100, 0, 48, 117, 48, 117, 100, 0, 100, 0, 44, 1, 44, 1, 44, 1, 44, 1, 44, 
  1, 44, 1, 44, 1, 44, 1, 44, 1, 44, 1, 44, 1, 44, 1, 44, 1, 44, 1, 112, 23, 
  112, 23, 112, 23, 112, 23, 8, 7, 8, 7, 8, 7, 8, 7, 112, 23, 112, 23, 112, 
  23, 112, 23, 112, 23, 112, 23, 255, 255, 255, 255, 255, 255, 255, 255, 112, 
  23, 112, 23, 112, 23, 112, 23, 255, 255, 255, 255, 220, 5, 220, 5, 255, 
  255, 255, 255, 255, 255, 255, 255, 255, 255, 255, 255, 220, 5, 220, 5, 220, 
  5, 255, 255, 255, 255, 255, 255, 255, 255, 255, 255, 255, 255, 255, 255, 
  255, 255, 255, 255, 255, 255, 255, 255, 255, 255, 255, 255, 255, 255, 255, 
  255, 255, 255, 255, 255, 255, 255, 255, 255, 255, 255, 255, 255, 44, 1, 0, 
  5, 10, 5, 0, 2, 0, 10, 0, 30, 0, 5, 0, 5, 0, 5, 0, 5, 0, 5, 0, 5, 0, 64, 1, 
  100, 0, 100, 0, 100, 0, 200, 0, 200, 0, 200, 0, 64, 1, 64, 1, 64, 1, 10, 0, 
  0, 0, 0, 0, 0, 249, 234, 0, 0 ]

/-- `BSecProxy::bsec_config_load(config_buffer, n_buffer)` (lines 204-212):
`memcpy(config_buffer, bsec_config_iaq, n_buffer)` -- it copies `n_buffer`
bytes (for `n_buffer > 492` the C code over-reads past the blob; the model
records the in-bounds bytes) -- `return sizeof(bsec_config_iaq)`, i.e. the
constant 492, whatever `n_buffer` was.  The result pair is (bytes copied to
`config_buffer`, returned count). -/
def bsec_config_load (n_buffer : Nat) : List Nat × Nat :=
  (bsec_config_iaq.take n_buffer, 492)

end BSecProxy

/-! ## HomeBridgeService (src/homebridge_service.cpp)

The two `std::map<std::string, double>` members are modelled as
association lists with at most one entry per key (`mapSet` updates in
place or appends).  Iteration order of the model may differ from the
key-sorted order of `std::map`; no claim depends on the order of publish
calls within one flush.  Sensor values (C `double`) are passed through to
the endpoint verbatim and never computed with, so the value type is an
arbitrary parameter `V`. -/

/-- `m[k] = v` on a string-keyed map: replace the entry for `k` if present,
append it otherwise. -/
def mapSet {V : Type} (m : List (String × V)) (k : String) (v : V) :
    List (String × V) :=
  match m with
  | [] => [(k, v)]
  | (k1, v1) :: rest =>
      if k1 = k then (k, v) :: rest else (k1, v1) :: mapSet rest k v

/-- The merge loop of the publishing thread:
`for (auto& sensor : next_sensors) sensors[sensor.first] = sensor.second;`
applied left to right. -/
def mapMerge {V : Type} (base next : List (String × V)) :
    List (String × V) :=
  next.foldl (fun m kv => mapSet m kv.1 kv.2) base

/-- Uniqueness of keys, the `std::map` representation invariant of the
model; it holds for every map the service ever builds. -/
def keysNodup {V : Type} (m : List (String × V)) : Prop :=
  (m.map Prod.fst).Nodup

/-- State of `HomeBridgeService`: the configured URL, the `sensors` map of
last published/known values and the `next_sensors` map of pending updates.
The publish-interval, thread and mutex members do not enter the
per-operation semantics. -/
structure HomeBridgeService (V : Type) where
  url : String
  sensors : List (String × V)
  next_sensors : List (String × V)
deriving DecidableEq

/-- `HomeBridgeService::update(sensor_id, value)` (lines 41-45): store the
value into `next_sensors` under the lock, overwriting any pending value. -/
def HomeBridgeService.update {V : Type} (s : HomeBridgeService V)
    (sensor_id : String) (value : V) : HomeBridgeService V :=
  ⟨s.url, s.sensors, mapSet s.next_sensors sensor_id value⟩

/-- `HomeBridgeService::publish(sensor_id, value)` (lines 47-66): with an
empty URL, no network request is made and the value is stored into
`sensors` (local-only mode); with a URL, one GET request is issued
carrying the id and value; a 200 response stores the value into `sensors`,
any other status throws before the store.  The second component lists the
network calls made (one or none); `responseOk` is the outcome of the GET. -/
def HomeBridgeService.publish {V : Type} (s : HomeBridgeService V)
    (sensor_id : String) (value : V) (responseOk : Bool) :
    HomeBridgeService V × List (String × V) :=
  if s.url = "" then
    (⟨s.url, mapSet s.sensors sensor_id value, s.next_sensors⟩, [])
  else if responseOk then
    (⟨s.url, mapSet s.sensors sensor_id value, s.next_sensors⟩,
      [(sensor_id, value)])
  else (s, [(sensor_id, value)])

/-- One turn of the `for (auto& sensor : sensors)` loop of the publishing
thread: call `publish` for the entry, catching (and only logging) any
exception it throws, so a failed publish does not stop the loop; the calls
issued so far are accumulated. -/
def publishStep {V : Type} (netOk : String → V → Bool)
    (acc : HomeBridgeService V × List (String × V)) (kv : String × V) :
    HomeBridgeService V × List (String × V) :=
  let r := acc.1.publish kv.1 kv.2 (netOk kv.1 kv.2)
  (r.1, acc.2 ++ r.2)

/-- One iteration of the publishing thread loop in
`HomeBridgeService::start` (lines 81-97), minus the sleep: under the lock,
merge `next_sensors` into `sensors` and clear `next_sensors`; then run
`publishStep` over every entry of `sensors`.  `netOk` gives the response
outcome of each GET.  Returns the state after the iteration and the list
of network calls issued. -/
def HomeBridgeService.flushCycle {V : Type} (s : HomeBridgeService V)
    (netOk : String → V → Bool) :
    HomeBridgeService V × List (String × V) :=
  let merged := mapMerge s.sensors s.next_sensors
  let s1 : HomeBridgeService V := ⟨s.url, merged, []⟩
  merged.foldl (publishStep netOk) (s1, [])

/-! ### Association-map lemmas -/

theorem lookup_cons_eq {V : Type} (k : String) (v : V)
    (tl : List (String × V)) : List.lookup k ((k, v) :: tl) = some v := by
  simp [List.lookup_cons]

theorem lookup_cons_ne {V : Type} (k k1 : String) (v1 : V)
    (tl : List (String × V)) (h : k ≠ k1) :
    List.lookup k ((k1, v1) :: tl) = List.lookup k tl := by
  simp [List.lookup_cons, beq_false_of_ne h]

theorem mapSet_lookup_self {V : Type} (m : List (String × V)) (k : String)
    (v : V) : (mapSet m k v).lookup k = some v := by
  induction m with
  | nil => simp [mapSet, lookup_cons_eq]
  | cons hd tl ih =>
      obtain ⟨k1, v1⟩ := hd
      by_cases h : k1 = k
      · simp [mapSet, h, lookup_cons_eq]
      · rw [mapSet, if_neg h, lookup_cons_ne _ _ _ _ (Ne.symm h)]
        exact ih

theorem mapSet_lookup_ne {V : Type} (m : List (String × V)) (k x : String)
    (v : V) (hx : x ≠ k) : (mapSet m k v).lookup x = m.lookup x := by
  induction m with
  | nil =>
      simp only [mapSet]
      rw [lookup_cons_ne _ _ _ _ hx]
  | cons hd tl ih =>
      obtain ⟨k1, v1⟩ := hd
      by_cases h : k1 = k
      · subst h
        rw [mapSet, if_pos rfl, lookup_cons_ne _ _ _ _ hx,
          lookup_cons_ne _ _ _ _ hx]
      · rw [mapSet, if_neg h]
        by_cases h2 : x = k1
        · subst h2
          rw [lookup_cons_eq, lookup_cons_eq]
        · rw [lookup_cons_ne _ _ _ _ h2, lookup_cons_ne _ _ _ _ h2]
          exact ih

theorem mapSet_keys {V : Type} (m : List (String × V)) (k : String)
    (v : V) : (mapSet m k v).map Prod.fst =
      if k ∈ m.map Prod.fst then m.map Prod.fst
      else m.map Prod.fst ++ [k] := by
  induction m with
  | nil => simp [mapSet]
  | cons hd tl ih =>
      obtain ⟨k1, v1⟩ := hd
      by_cases h : k1 = k
      · simp [mapSet, h]
      · by_cases h2 : k ∈ tl.map Prod.fst <;>
          simp [mapSet, h, Ne.symm h, h2, ih]

theorem mapSet_keysNodup {V : Type} (m : List (String × V)) (k : String)
    (v : V) (hm : keysNodup m) : keysNodup (mapSet m k v) := by
  unfold keysNodup at hm ⊢
  rw [mapSet_keys]
  by_cases h : k ∈ m.map Prod.fst
  · simpa [h] using hm
  · rw [if_neg h]
    simpa [List.nodup_append, h] using hm

theorem mapMerge_keysNodup {V : Type} (base next : List (String × V))
    (hb : keysNodup base) : keysNodup (mapMerge base next) := by
  induction next generalizing base with
  | nil => simpa [mapMerge] using hb
  | cons hd tl ih =>
      simpa [mapMerge, List.foldl_cons] using
        ih (mapSet base hd.1 hd.2) (mapSet_keysNodup base hd.1 hd.2 hb)

theorem mapMerge_cons {V : Type} (base : List (String × V))
    (hd : String × V) (tl : List (String × V)) :
    mapMerge base (hd :: tl) = mapMerge (mapSet base hd.1 hd.2) tl := by
  simp [mapMerge, List.foldl_cons]

theorem mapMerge_lookup_absent {V : Type} (base next : List (String × V))
    (x : String) (hx : x ∉ next.map Prod.fst) :
    (mapMerge base next).lookup x = base.lookup x := by
  induction next generalizing base with
  | nil => simp [mapMerge]
  | cons hd tl ih =>
      simp only [List.map_cons, List.mem_cons, not_or] at hx
      rw [mapMerge_cons, ih _ hx.2, mapSet_lookup_ne _ _ _ _ hx.1]

theorem mapMerge_lookup {V : Type} (base next : List (String × V))
    (x : String) (v : V) (hn : keysNodup next)
    (hv : next.lookup x = some v) :
    (mapMerge base next).lookup x = some v := by
  induction next generalizing base with
  | nil => simp [List.lookup] at hv
  | cons hd tl ih =>
      obtain ⟨k, w⟩ := hd
      unfold keysNodup at hn
      simp only [List.map_cons, List.nodup_cons] at hn
      by_cases h : x = k
      · subst h
        rw [lookup_cons_eq] at hv
        have hv2 : w = v := by simpa using hv
        subst hv2
        rw [mapMerge_cons, mapMerge_lookup_absent _ _ _ hn.1]
        exact mapSet_lookup_self _ _ _
      · rw [lookup_cons_ne _ _ _ _ h] at hv
        rw [mapMerge_cons]
        exact ih _ hn.2 hv

theorem filter_key_absent {V : Type} (m : List (String × V)) (x : String)
    (hx : x ∉ m.map Prod.fst) :
    m.filter (fun p => p.1 == x) = [] := by
  induction m with
  | nil => simp
  | cons hd tl ih =>
      simp only [List.map_cons, List.mem_cons, not_or] at hx
      have hb : (hd.1 == x) = false := beq_false_of_ne (Ne.symm hx.1)
      simp [List.filter, hb, ih hx.2]

theorem mapSet_filter_self {V : Type} (m : List (String × V)) (k : String)
    (v : V) (hm : keysNodup m) :
    (mapSet m k v).filter (fun p => p.1 == k) = [(k, v)] := by
  induction m with
  | nil => simp [mapSet]
  | cons hd tl ih =>
      obtain ⟨k1, v1⟩ := hd
      unfold keysNodup at hm
      simp only [List.map_cons, List.nodup_cons] at hm
      by_cases h : k1 = k
      · subst h
        simp [mapSet, List.filter, filter_key_absent tl k1 hm.1]
      · have hb : (k1 == k) = false := beq_false_of_ne h
        simp [mapSet, h, List.filter, hb, ih hm.2]

theorem mapSet_filter_ne {V : Type} (m : List (String × V)) (k x : String)
    (v : V) (hx : x ≠ k) :
    (mapSet m k v).filter (fun p => p.1 == x) =
      m.filter (fun p => p.1 == x) := by
  induction m with
  | nil =>
      have hb : (k == x) = false := beq_false_of_ne (Ne.symm hx)
      simp [mapSet, List.filter, hb]
  | cons hd tl ih =>
      obtain ⟨k1, v1⟩ := hd
      by_cases h : k1 = k
      · subst h
        have hb : (k1 == x) = false := beq_false_of_ne (Ne.symm hx)
        simp [mapSet, List.filter, hb]
      · simp [mapSet, h, List.filter, ih]

theorem mapMerge_filter_absent {V : Type} (base next : List (String × V))
    (x : String) (hx : x ∉ next.map Prod.fst) :
    (mapMerge base next).filter (fun p => p.1 == x) =
      base.filter (fun p => p.1 == x) := by
  induction next generalizing base with
  | nil => simp [mapMerge]
  | cons hd tl ih =>
      simp only [List.map_cons, List.mem_cons, not_or] at hx
      rw [mapMerge_cons, ih _ hx.2, mapSet_filter_ne _ _ _ _ hx.1]

theorem mapMerge_filter {V : Type} (base next : List (String × V))
    (x : String) (v : V) (hb : keysNodup base) (hn : keysNodup next)
    (hv : next.lookup x = some v) :
    (mapMerge base next).filter (fun p => p.1 == x) = [(x, v)] := by
  induction next generalizing base with
  | nil => simp [List.lookup] at hv
  | cons hd tl ih =>
      obtain ⟨k, w⟩ := hd
      unfold keysNodup at hn
      simp only [List.map_cons, List.nodup_cons] at hn
      by_cases h : x = k
      · subst h
        rw [lookup_cons_eq] at hv
        have hv2 : w = v := by simpa using hv
        subst hv2
        rw [mapMerge_cons, mapMerge_filter_absent _ _ _ hn.1]
        exact mapSet_filter_self _ _ _ hb
      · rw [lookup_cons_ne _ _ _ _ h] at hv
        rw [mapMerge_cons]
        exact ih (mapSet base k w) (mapSet_keysNodup _ _ _ hb) hn.2 hv

theorem mapSet_overwrite {V : Type} (m : List (String × V)) (k : String)
    (v1 v2 : V) : mapSet (mapSet m k v1) k v2 = mapSet m k v2 := by
  induction m with
  | nil => simp [mapSet]
  | cons hd tl ih =>
      obtain ⟨k1, w⟩ := hd
      by_cases h : k1 = k <;> simp [mapSet, h, ih]

theorem mapSet_eq_self {V : Type} (m : List (String × V)) (k : String)
    (v : V) (hv : m.lookup k = some v) : mapSet m k v = m := by
  induction m with
  | nil => simp [List.lookup] at hv
  | cons hd tl ih =>
      obtain ⟨k1, w⟩ := hd
      by_cases h : k = k1
      · subst h
        rw [lookup_cons_eq] at hv
        have : w = v := by simpa using hv
        subst this
        simp [mapSet]
      · rw [lookup_cons_ne _ _ _ _ h] at hv
        simp [mapSet, Ne.symm h, ih hv]

theorem lookup_of_mem_nodup {V : Type} (m : List (String × V))
    (k : String) (v : V) (hm : keysNodup m) (h : (k, v) ∈ m) :
    m.lookup k = some v := by
  induction m with
  | nil => simp at h
  | cons hd tl ih =>
      obtain ⟨k1, w⟩ := hd
      unfold keysNodup at hm
      simp only [List.map_cons, List.nodup_cons] at hm
      rcases List.mem_cons.mp h with h1 | h1
      · simp only [Prod.mk.injEq] at h1
        obtain ⟨hk, hv⟩ := h1
        subst hk
        subst hv
        exact lookup_cons_eq _ _ _
      · have hk : k ≠ k1 := by
          intro he
          exact hm.1 (he ▸ (List.mem_map.mpr ⟨(k, v), h1, rfl⟩))
        rw [lookup_cons_ne _ _ _ _ hk]
        exact ih hm.2 h1

/-! ### Characterization of one flush iteration -/

theorem publishStep_empty_url {V : Type} (netOk : String → V → Bool)
    (m cs : List (String × V)) (kv : String × V)
    (hkv : m.lookup kv.1 = some kv.2) :
    publishStep netOk ((⟨"", m, []⟩ : HomeBridgeService V), cs) kv
      = (⟨"", m, []⟩, cs) := by
  simp [publishStep, HomeBridgeService.publish,
    mapSet_eq_self _ _ _ hkv]

theorem publishStep_with_url {V : Type} (netOk : String → V → Bool)
    (url : String) (hu : url ≠ "") (m cs : List (String × V))
    (kv : String × V) (hkv : m.lookup kv.1 = some kv.2) :
    publishStep netOk ((⟨url, m, []⟩ : HomeBridgeService V), cs) kv
      = (⟨url, m, []⟩, cs ++ [kv]) := by
  by_cases hok : netOk kv.1 kv.2 <;>
    simp [publishStep, HomeBridgeService.publish, hu, hok,
      mapSet_eq_self _ _ _ hkv]

theorem publishFold_spec {V : Type} (netOk : String → V → Bool)
    (url : String) (l : List (String × V)) :
    ∀ (m cs : List (String × V)),
    (∀ kv ∈ l, m.lookup kv.1 = some kv.2) →
    l.foldl (publishStep netOk) ((⟨url, m, []⟩ : HomeBridgeService V), cs)
      = (⟨url, m, []⟩, cs ++ if url = "" then [] else l) := by
  induction l with
  | nil =>
      intro m cs h
      simp
  | cons kv l ih =>
      intro m cs h
      have hkv : m.lookup kv.1 = some kv.2 := h kv (List.mem_cons_self _ _)
      rw [List.foldl_cons]
      by_cases hu : url = ""
      · subst hu
        rw [publishStep_empty_url netOk m cs kv hkv,
          ih m cs (fun kv2 h2 => h kv2 (List.mem_cons_of_mem _ h2))]
        simp
      · rw [publishStep_with_url netOk url hu m cs kv hkv,
          ih m (cs ++ [kv]) (fun kv2 h2 => h kv2 (List.mem_cons_of_mem _ h2))]
        simp [hu]

theorem flushCycle_spec {V : Type} (s : HomeBridgeService V)
    (netOk : String → V → Bool) (hs : keysNodup s.sensors) :
    s.flushCycle netOk =
      (⟨s.url, mapMerge s.sensors s.next_sensors, []⟩,
        if s.url = "" then []
        else mapMerge s.sensors s.next_sensors) := by
  have hmerged : keysNodup (mapMerge s.sensors s.next_sensors) :=
    mapMerge_keysNodup _ _ hs
  have hmem : ∀ kv ∈ mapMerge s.sensors s.next_sensors,
      (mapMerge s.sensors s.next_sensors).lookup kv.1 = some kv.2 := by
    intro kv hkv
    exact lookup_of_mem_nodup _ _ _ hmerged hkv
  unfold HomeBridgeService.flushCycle
  rw [publishFold_spec netOk s.url (mapMerge s.sensors s.next_sensors)
    (mapMerge s.sensors s.next_sensors) [] hmem]
  simp

/-! ## Concrete fixtures used by witnesses and counterexamples -/

/-- Response oracle under which every GET succeeds. -/
def netOkAll : String → Nat → Bool := fun _ _ => true

/-- Kernel/hardware oracle under which every transaction succeeds. -/
def hwAllOk : Hw :=
  ⟨fun _ _ => true, fun _ _ => true, fun _ _ => true, fun _ _ => some 3⟩

/-- A bus object in the opened state (descriptor 3) on the device and
slave address the application uses. -/
def busOpen3 : SimpleI2CBus := ⟨"/dev/i2c-1", 119, 3⟩

/-- A 64-byte payload: together with the register-address byte it exceeds
the 64-byte maximum transfer size. -/
def oversizedPayload : List Nat := List.replicate 64 0

/-- A publisher with a configured (non-empty) endpoint URL and no
sensors yet. -/
def hbConfigured : HomeBridgeService Nat := ⟨"http://hb.local", [], []⟩

/-- A publisher in local-only mode (empty endpoint URL). -/
def hbLocal : HomeBridgeService Nat := ⟨"", [], []⟩

/-- A scheduler state with fresh statistics. -/
def sched0 : EnhancedBSECScheduling.BSECScheduler := ⟨0, 0, 0, 0⟩

/-! ## Claims -/

/-- C7: for every path at which no state file exists (the `none` case),
`bsec_state_load` returns a zero-length result -- no bytes copied and
count 0 -- and never an error: the only output channel of the function is this
byte/count pair. -/
theorem C7_missing_state_file_loads_empty (n_buffer : Nat) :
    BSecProxy.bsec_state_load none n_buffer = ([], 0) := rfl

/-- Witness for C7 at a concrete capacity argument. -/
theorem C7_witness : BSecProxy.bsec_state_load none 5 = ([], 0) :=
  C7_missing_state_file_loads_empty 5

/-- C9: for every existing state file whose length prefix records
`n_serialized_state` (within the payload region actually stored),
`bsec_state_load` copies exactly that many bytes and returns that count,
for every value of the caller-supplied capacity argument: the result is
independent of the capacity, which never bounds the copy or the count. -/
theorem C9_capacity_never_bounds_load (st : BSecProxy.BSECSerializedState)
    (n1 n2 : Nat) (h : st.n_serialized_state ≤ st.serialized_state.length) :
    (BSecProxy.bsec_state_load (some st) n1).2 = st.n_serialized_state ∧
    (BSecProxy.bsec_state_load (some st) n1).1.length
      = st.n_serialized_state ∧
    BSecProxy.bsec_state_load (some st) n1
      = BSecProxy.bsec_state_load (some st) n2 := by
  refine ⟨rfl, ?_, rfl⟩
  simp [BSecProxy.bsec_state_load, List.length_take, Nat.min_eq_left h]

/-- Witness for C9 at a concrete record (3 meaningful bytes in a 221-byte
payload region) and two different capacity arguments. -/
theorem C9_witness :
    (BSecProxy.bsec_state_load
        (some ⟨3, List.replicate 221 7⟩) 0).2 = 3 ∧
    (BSecProxy.bsec_state_load
        (some ⟨3, List.replicate 221 7⟩) 0).1.length = 3 ∧
    BSecProxy.bsec_state_load (some ⟨3, List.replicate 221 7⟩) 0
      = BSecProxy.bsec_state_load (some ⟨3, List.replicate 221 7⟩) 999 :=
  C9_capacity_never_bounds_load ⟨3, List.replicate 221 7⟩ 0 999
    (by simp)

/-- C5 counterexample: a buffer one byte longer than the capacity (taking
the vendor capacity to be 221) is not rejected by `bsec_state_save` --
the function has no rejection branch at all, so it produces a written
record rather than the refusal the claim requires. -/
theorem C5_counterexample :
    (List.replicate 222 0).length = 221 + 1 ∧
    BSecProxy.bsec_state_save 221 (List.replicate 222 0) ≠ none := by
  constructor
  · simp
  · simp [BSecProxy.bsec_state_save]

/-- C5 amended: a save-then-load cycle returns exactly the original bytes
and length for every byte sequence whose length is at most the capacity
(and below 2^32, so the uint32 length prefix does not wrap); however, a
byte sequence longer than the capacity is NOT rejected -- the save always
produces a record (its unchecked copy is an out-of-bounds write in the C
code). -/
theorem C5_amended_roundtrip_no_rejection (cap : Nat) (buf : List Nat)
    (n_buffer : Nat) :
    (BSecProxy.bsec_state_save cap buf).isSome = true ∧
    (buf.length ≤ cap → buf.length < UINT32_MOD →
      BSecProxy.bsec_state_load (BSecProxy.bsec_state_save cap buf) n_buffer
        = (buf, buf.length)) := by
  refine ⟨rfl, ?_⟩
  intro h1 h2
  simp only [BSecProxy.bsec_state_save, BSecProxy.bsec_state_load,
    BSecProxy.structPayload]
  rw [Nat.mod_eq_of_lt h2, List.take_of_length_le h1,
    List.take_left buf (List.replicate (cap - buf.length) 0)]

/-- Witness for C5 (amended) at capacity 221 and a 5-byte state. -/
theorem C5_witness :
    (BSecProxy.bsec_state_save 221 (List.replicate 5 9)).isSome = true ∧
    BSecProxy.bsec_state_load
        (BSecProxy.bsec_state_save 221 (List.replicate 5 9)) 0
      = (List.replicate 5 9, 5) := by
  have h := C5_amended_roundtrip_no_rejection 221 (List.replicate 5 9) 0
  exact ⟨h.1, by simpa using h.2 (by simp) (by simp [UINT32_MOD])⟩

/-- C6 (code bug): at capacity argument 100, `bsec_config_load` copies
100 bytes into the buffer yet returns 492, the size of the configuration
blob -- the returned value is not the number of bytes copied, and what
was copied is a strict prefix of the blob, contradicting the claim and
the doc comment of the function itself. -/
theorem C6_config_load_return_mismatch :
    (BSecProxy.bsec_config_load 100).1.length = 100 ∧
    (BSecProxy.bsec_config_load 100).2 = 492 ∧
    (BSecProxy.bsec_config_load 100).1 ≠ BSecProxy.bsec_config_iaq ∧
    (100 : Nat) ≠ 492 := by
  have hlen : BSecProxy.bsec_config_iaq.length = 492 := rfl
  refine ⟨?_, rfl, ?_, by decide⟩
  · simp [BSecProxy.bsec_config_load, List.length_take, hlen]
  · intro hcontra
    have := congrArg List.length hcontra
    simp [BSecProxy.bsec_config_load, List.length_take, hlen] at this

/-- C2: per wait cycle, with `delay = now_us - next_call_ns / 1000`:
a delay within the 1 ms tolerance proceeds normally (no counter change, no
reset signal); a delay over the tolerance but within the 10 ms drift
ceiling increments the violation counter by exactly one and proceeds
without resetting statistics; a delay over the ceiling yields exactly one
severe-drift reset signal (`false` from `waitForNextCall`, the only branch
that produces it) and, after the reset reaction of the caller, the violation
counter is zero. -/
theorem C2_scheduler_wait_trichotomy
    (st : EnhancedBSECScheduling.BSECScheduler)
    (next_call_ns now_us : Int) :
    ((now_us - Int.tdiv next_call_ns 1000 ≤ 1000) →
      st.waitForNextCall next_call_ns now_us = (true, st) ∧
      st.runCycle next_call_ns now_us = (true, st)) ∧
    ((1000 < now_us - Int.tdiv next_call_ns 1000) →
      (now_us - Int.tdiv next_call_ns 1000 ≤ 10000) →
      (st.timing_violation_count + 1 < UINT32_MOD) →
      st.waitForNextCall next_call_ns now_us =
        (true, ⟨st.last_call_time_us, st.scheduling_start_time_us,
          st.timing_violation_count + 1, st.total_cycles⟩) ∧
      st.runCycle next_call_ns now_us =
        (true, ⟨st.last_call_time_us, st.scheduling_start_time_us,
          st.timing_violation_count + 1, st.total_cycles⟩)) ∧
    ((10000 < now_us - Int.tdiv next_call_ns 1000) →
      (st.runCycle next_call_ns now_us).1 = false ∧
      (st.runCycle next_call_ns now_us).2.timing_violation_count = 0 ∧
      (st.runCycle next_call_ns now_us).2.total_cycles = 0) := by
  refine ⟨?_, ?_, ?_⟩
  · intro h1
    have h1n : ¬(1000 < now_us - Int.tdiv next_call_ns 1000) :=
      not_lt.mpr h1
    constructor
    · simp [EnhancedBSECScheduling.BSECScheduler.waitForNextCall,
        EnhancedBSECScheduling.TIMING_VIOLATION_THRESHOLD_US, h1n]
    · simp [EnhancedBSECScheduling.BSECScheduler.runCycle,
        EnhancedBSECScheduling.BSECScheduler.waitForNextCall,
        EnhancedBSECScheduling.TIMING_VIOLATION_THRESHOLD_US, h1n]
  · intro h1 h2 hc
    have h2n : ¬(10000 < now_us - Int.tdiv next_call_ns 1000) :=
      not_lt.mpr h2
    constructor
    · simp [EnhancedBSECScheduling.BSECScheduler.waitForNextCall,
        EnhancedBSECScheduling.TIMING_VIOLATION_THRESHOLD_US,
        EnhancedBSECScheduling.MAX_TIMING_DRIFT_US, h1, h2n,
        Nat.mod_eq_of_lt hc]
    · simp [EnhancedBSECScheduling.BSECScheduler.runCycle,
        EnhancedBSECScheduling.BSECScheduler.waitForNextCall,
        EnhancedBSECScheduling.TIMING_VIOLATION_THRESHOLD_US,
        EnhancedBSECScheduling.MAX_TIMING_DRIFT_US, h1, h2n,
        Nat.mod_eq_of_lt hc]
  · intro h3
    have h1 : 1000 < now_us - Int.tdiv next_call_ns 1000 :=
      lt_trans (by norm_num) h3
    refine ⟨?_, ?_, ?_⟩ <;>
      simp [EnhancedBSECScheduling.BSECScheduler.runCycle,
        EnhancedBSECScheduling.BSECScheduler.waitForNextCall,
        EnhancedBSECScheduling.BSECScheduler.resetStats,
        EnhancedBSECScheduling.TIMING_VIOLATION_THRESHOLD_US,
        EnhancedBSECScheduling.MAX_TIMING_DRIFT_US, h1, h3]

/-- Witness for C2: deadline at 2,000,000 us (2,000,000,000 ns); a cycle
arriving 15,000 us late yields the reset signal and a zero violation
counter afterward; a cycle 2,000 us late increments the counter by exactly
one with no reset; a cycle 500 us late changes nothing. -/
theorem C2_witness :
    (sched0.runCycle 2000000000 2015000).1 = false ∧
    (sched0.runCycle 2000000000 2015000).2.timing_violation_count = 0 ∧
    sched0.waitForNextCall 2000000000 2002000 = (true, ⟨0, 0, 1, 0⟩) ∧
    sched0.waitForNextCall 2000000000 2000500 = (true, sched0) := by
  refine ⟨?_, ?_, ?_, ?_⟩
  · exact ((C2_scheduler_wait_trichotomy sched0 2000000000 2015000).2.2
      (by decide)).1
  · exact ((C2_scheduler_wait_trichotomy sched0 2000000000 2015000).2.2
      (by decide)).2.1
  · exact ((C2_scheduler_wait_trichotomy sched0 2000000000 2002000).2.1
      (by decide) (by decide) (by decide)).1
  · exact ((C2_scheduler_wait_trichotomy sched0 2000000000 2000500).1
      (by decide)).1

/-- Helper: `writeData` on a closed bus (`busfd = -1`) returns `-1`
immediately, leaves the object untouched and performs no device I/O, for
every hardware oracle. -/
theorem writeData_closed (b : SimpleI2CBus) (hw : Hw) (reg : Nat)
    (data : List Nat) (hb : b.busfd = -1) :
    b.writeData hw reg data = ⟨-1, b, []⟩ := by
  simp [SimpleI2CBus.writeData, hb]

/-- Helper: `readData` on a closed bus (`busfd = -1`) returns `-1` with no
device I/O: the register-select syscall fails at the kernel boundary
(EBADF) and the subsequent `closeI2CBus` leaves the already-closed object
unchanged. -/
theorem readData_closed (b : SimpleI2CBus) (hw : Hw) (reg : Nat)
    (len : Nat) (hb : b.busfd = -1) :
    b.readData hw reg len = ⟨-1, b, []⟩ := by
  obtain ⟨dev, sa, fd⟩ := b
  simp only at hb
  subst hb
  simp [SimpleI2CBus.readData, sysWriteByte, SimpleI2CBus.closeI2CBus]

/-- Helper: whenever `writeData` returns a negative result, the bus object
it leaves behind is closed (requires the descriptor invariant, since a
hypothetical `busfd < -1` state would be rejected as not-open yet report
`isOpened = true`; such a state is unreachable). -/
theorem writeData_fail_closes (b : SimpleI2CBus) (hw : Hw) (reg : Nat)
    (data : List Nat) (hwf : b.wf)
    (hret : (b.writeData hw reg data).ret < 0) :
    ((b.writeData hw reg data).bus).isOpened = false := by
  rcases hwf with hb | hb
  · rw [writeData_closed b hw reg data hb]
    simp [SimpleI2CBus.isOpened, hb]
  · have h1 : ¬(b.busfd < 0) := not_lt.mpr hb
    by_cases h2 : (data.length + 1) % UINT32_MOD > I2C_BUS_MAX_BUFFER_SIZE
    · simp [SimpleI2CBus.writeData, h1, h2, SimpleI2CBus.closeI2CBus,
        SimpleI2CBus.isOpened]
    · by_cases h3 : hw.writeOk b.busfd (reg :: data)
      · exfalso
        have h4 : ¬((data.length : Int) + 1 < 0) :=
          not_lt.mpr (by positivity)
        have : b.writeData hw reg data =
            ⟨((data.length : Int) + 1), b,
              [HwEvent.write b.busfd (reg :: data)]⟩ := by
          simp [SimpleI2CBus.writeData, h1, h2, sysWrite, h3, h4]
        rw [this] at hret
        exact absurd hret h4
      · simp [SimpleI2CBus.writeData, h1, h2, sysWrite, h3,
          SimpleI2CBus.closeI2CBus, SimpleI2CBus.isOpened]

/-- Helper: whenever `readData` returns a negative result, the bus object
it leaves behind is closed. -/
theorem readData_fail_closes (b : SimpleI2CBus) (hw : Hw) (reg : Nat)
    (len : Nat) (hret : (b.readData hw reg len).ret < 0) :
    ((b.readData hw reg len).bus).isOpened = false := by
  by_cases h1 : b.busfd < 0
  · simp [SimpleI2CBus.readData, sysWriteByte, h1,
      SimpleI2CBus.closeI2CBus, SimpleI2CBus.isOpened]
  · by_cases h2 : hw.writeByteOk b.busfd reg
    · by_cases h3 : hw.readOk b.busfd len
      · exfalso
        have : b.readData hw reg len =
            ⟨((len : Nat) : Int), b,
              [HwEvent.writeByte b.busfd reg, HwEvent.read b.busfd len]⟩ := by
          simp [SimpleI2CBus.readData, sysWriteByte, sysRead, h1, h2, h3]
        rw [this] at hret
        exact absurd hret (not_lt.mpr (Int.natCast_nonneg _))
      · simp [SimpleI2CBus.readData, sysWriteByte, sysRead, h1, h2, h3,
          SimpleI2CBus.closeI2CBus, SimpleI2CBus.isOpened]
    · simp [SimpleI2CBus.readData, sysWriteByte, h1, h2,
        SimpleI2CBus.closeI2CBus, SimpleI2CBus.isOpened]

/-- C4: a register operation (write or read) invoked while the transport
is not open fails immediately and deterministically -- returning `-1`
with the object unchanged, for every hardware oracle -- without touching
the hardware (no device transactions); and after any write or read
failure, `isOpened()` returns false. -/
theorem C4_not_open_fails_and_failure_closes (b : SimpleI2CBus) (hw : Hw)
    (reg : Nat) (data : List Nat) (len : Nat) (hwf : b.wf) :
    (b.isOpened = false →
      b.writeData hw reg data = ⟨-1, b, []⟩ ∧
      b.readData hw reg len = ⟨-1, b, []⟩) ∧
    ((b.writeData hw reg data).ret < 0 →
      ((b.writeData hw reg data).bus).isOpened = false) ∧
    ((b.readData hw reg len).ret < 0 →
      ((b.readData hw reg len).bus).isOpened = false) := by
  refine ⟨?_, writeData_fail_closes b hw reg data hwf,
    readData_fail_closes b hw reg len⟩
  intro h
  have hb : b.busfd = -1 := by
    simpa [SimpleI2CBus.isOpened] using h
  exact ⟨writeData_closed b hw reg data hb, readData_closed b hw reg len hb⟩

/-- A bus object in the closed state on the device the application uses. -/
def busClosed : SimpleI2CBus := ⟨"/dev/i2c-1", 119, -1⟩

/-- Witness for C4 at the closed bus: both operations fail with no I/O and
the object stays closed; and after the failing read, `isOpened()` is
false. -/
theorem C4_witness :
    busClosed.writeData hwAllOk 0 [1] = ⟨-1, busClosed, []⟩ ∧
    busClosed.readData hwAllOk 0 1 = ⟨-1, busClosed, []⟩ ∧
    ((busClosed.readData hwAllOk 0 1).bus).isOpened = false := by
  have h := C4_not_open_fails_and_failure_closes busClosed hwAllOk 0 [1] 1
    (Or.inl rfl)
  exact ⟨(h.1 (by decide)).1, (h.1 (by decide)).2, h.2.2 (by decide)⟩

/-- C3 counterexample: on an open bus, a payload of 64 bytes (64 + 1 > 64)
is rejected with no device I/O -- but the transport does NOT keep its
open/closed state: the rejection closes it (`isOpened()` flips from true
to false), contrary to the claim that auto-close is reserved for
transport-level write failures. -/
theorem C3_counterexample :
    busOpen3.isOpened = true ∧
    (busOpen3.writeData hwAllOk 0 oversizedPayload).ret = -1 ∧
    (busOpen3.writeData hwAllOk 0 oversizedPayload).io = [] ∧
    (busOpen3.writeData hwAllOk 0 oversizedPayload).bus.isOpened = false := by
  decide

/-- C3 amended: for every open transport and payload with
`payload length + 1` over the maximum transfer size (and below 2^32, where
the uint32 check itself would wrap), the write fails with `-1` without
performing any underlying bus I/O -- but the transport auto-closes itself
on this rejection exactly as on a transport-level write failure: after the
rejected call `isOpened()` is false. -/
theorem C3_amended_oversize_rejected_and_closes (b : SimpleI2CBus)
    (hw : Hw) (reg : Nat) (data : List Nat) (hopen : 0 ≤ b.busfd)
    (hbig : I2C_BUS_MAX_BUFFER_SIZE < data.length + 1)
    (hfit : data.length + 1 < UINT32_MOD) :
    b.writeData hw reg data = ⟨-1, b.closeI2CBus, []⟩ ∧
    ((b.writeData hw reg data).bus).isOpened = false := by
  have h1 : ¬(b.busfd < 0) := not_lt.mpr hopen
  have h2 : (data.length + 1) % UINT32_MOD > I2C_BUS_MAX_BUFFER_SIZE := by
    rwa [Nat.mod_eq_of_lt hfit]
  have hw1 : b.writeData hw reg data = ⟨-1, b.closeI2CBus, []⟩ := by
    simp [SimpleI2CBus.writeData, h1, h2]
  refine ⟨hw1, ?_⟩
  rw [hw1]
  simp [SimpleI2CBus.closeI2CBus, SimpleI2CBus.isOpened]

/-- Witness for C3 (amended) at the open bus and the 64-byte payload. -/
theorem C3_witness :
    busOpen3.writeData hwAllOk 0 oversizedPayload
      = ⟨-1, busOpen3.closeI2CBus, []⟩ ∧
    ((busOpen3.writeData hwAllOk 0 oversizedPayload).bus).isOpened
      = false :=
  C3_amended_oversize_rejected_and_closes busOpen3 hwAllOk 0
    oversizedPayload (by decide) (by decide) (by decide)

/-- C10: for every payload the write operation accepts (transport open and
`payload length + 1` within the maximum transfer size), a successful
transfer returns `payload length + 1`, the count of the register-address
byte prepended to the payload -- the message handed to the bus is
`reg_addr :: payload` -- not the payload length alone. -/
theorem C10_success_count_includes_address_byte (b : SimpleI2CBus)
    (hw : Hw) (reg : Nat) (data : List Nat) (hopen : 0 ≤ b.busfd)
    (hfit : data.length + 1 ≤ I2C_BUS_MAX_BUFFER_SIZE)
    (hok : hw.writeOk b.busfd (reg :: data) = true) :
    b.writeData hw reg data =
      ⟨((data.length + 1 : Nat) : Int), b,
        [HwEvent.write b.busfd (reg :: data)]⟩ := by
  have h1 : ¬(b.busfd < 0) := not_lt.mpr hopen
  have hlt : data.length + 1 < UINT32_MOD :=
    lt_of_le_of_lt hfit (by norm_num [I2C_BUS_MAX_BUFFER_SIZE, UINT32_MOD])
  have h2 : ¬((data.length + 1) % UINT32_MOD > I2C_BUS_MAX_BUFFER_SIZE) := by
    rw [Nat.mod_eq_of_lt hlt]
    exact not_lt.mpr hfit
  have h3 : ¬((data.length : Int) + 1 < 0) := not_lt.mpr (by positivity)
  simp [SimpleI2CBus.writeData, h1, h2, sysWrite, hok, h3]

/-- Witness for C10: a 3-byte payload on the open bus; the returned count
is 4 and the message carries the address byte followed by the payload. -/
theorem C10_witness :
    busOpen3.writeData hwAllOk 42 [1, 2, 3]
      = ⟨4, busOpen3, [HwEvent.write 3 (42 :: [1, 2, 3])]⟩ := by
  have h := C10_success_count_includes_address_byte busOpen3 hwAllOk 42
    [1, 2, 3] (by decide) (by decide) (by decide)
  simpa [busOpen3] using h

/-- C1 counterexample: update "x" once, flush, then flush again with no
update in between.  The claim says the second flush does not republish
"x"; the code republishes every known sensor each cycle, so the second
flush issues a publish call for "x" again (with the last-known value). -/
theorem C1_counterexample :
    ((hbConfigured.update "x" 1).flushCycle netOkAll).2 = [("x", 1)] ∧
    ((((hbConfigured.update "x" 1).flushCycle netOkAll).1).flushCycle
        netOkAll).2 = [("x", 1)] ∧
    ("x", 1) ∈ ((((hbConfigured.update "x" 1).flushCycle
        netOkAll).1).flushCycle netOkAll).2 := by
  decide

/-- C1 amended: `update x v1` then `update x v2` before the next flush
results in exactly one publish call for `x` in that flush, carrying `v2`
(latest-write-wins coalescing); but a metric that is never updated between
two flushes IS republished in the later flush, again as exactly one call
carrying its last-known value -- every flush republishes all known
metrics. -/
theorem C1_amended_latest_wins_but_republishes {V : Type}
    (s : HomeBridgeService V) (netOk : String → V → Bool) (x : String)
    (v1 v2 : V) (hu : s.url ≠ "") (hs : keysNodup s.sensors)
    (hn : keysNodup s.next_sensors) :
    (((s.update x v1).update x v2).flushCycle netOk).2.filter
        (fun p => p.1 == x) = [(x, v2)] ∧
    ((((s.update x v1).update x v2).flushCycle netOk).1.flushCycle
        netOk).2.filter (fun p => p.1 == x) = [(x, v2)] := by
  have hupd : (s.update x v1).update x v2
      = ⟨s.url, s.sensors, mapSet s.next_sensors x v2⟩ := by
    simp [HomeBridgeService.update, mapSet_overwrite]
  have hnext : keysNodup (mapSet s.next_sensors x v2) :=
    mapSet_keysNodup _ _ _ hn
  have hflush := flushCycle_spec
    (⟨s.url, s.sensors, mapSet s.next_sensors x v2⟩ : HomeBridgeService V)
    netOk hs
  have hfilter : (mapMerge s.sensors
      (mapSet s.next_sensors x v2)).filter (fun p => p.1 == x)
      = [(x, v2)] :=
    mapMerge_filter _ _ _ _ hs hnext (mapSet_lookup_self _ _ _)
  have hmergedNodup : keysNodup
      (mapMerge s.sensors (mapSet s.next_sensors x v2)) :=
    mapMerge_keysNodup _ _ hs
  have hflush2 := flushCycle_spec
    (⟨s.url, mapMerge s.sensors (mapSet s.next_sensors x v2), []⟩ :
      HomeBridgeService V) netOk hmergedNodup
  rw [hupd, hflush, if_neg hu]
  constructor
  · exact hfilter
  · simp only [hflush2, if_neg hu]
    simpa [mapMerge] using hfilter

/-- Witness for C1 (amended): two updates of "x" before the first flush
give one call carrying the second value; the next flush, with no update
in between, issues the same single call again. -/
theorem C1_witness :
    (((hbConfigured.update "x" 1).update "x" 2).flushCycle
        netOkAll).2.filter (fun p => p.1 == "x") = [("x", 2)] ∧
    ((((hbConfigured.update "x" 1).update "x" 2).flushCycle
        netOkAll).1.flushCycle netOkAll).2.filter
        (fun p => p.1 == "x") = [("x", 2)] :=
  C1_amended_latest_wins_but_republishes hbConfigured netOkAll "x" 1 2
    (by decide) (by simp [keysNodup, hbConfigured])
    (by simp [keysNodup, hbConfigured])

/-- C8: with an empty publish endpoint URL, an update followed by a flush
cycle performs zero network calls, and the value is recorded locally in
`sensors` as the last-known value for that metric. -/
theorem C8_empty_url_local_only {V : Type} (s : HomeBridgeService V)
    (netOk : String → V → Bool) (x : String) (v : V) (hu : s.url = "")
    (hs : keysNodup s.sensors) (hn : keysNodup s.next_sensors) :
    ((s.update x v).flushCycle netOk).2 = [] ∧
    ((s.update x v).flushCycle netOk).1.sensors.lookup x = some v := by
  have hflush := flushCycle_spec (s.update x v) netOk
    (by simpa [HomeBridgeService.update] using hs)
  constructor
  · rw [hflush]
    simp [HomeBridgeService.update, hu]
  · rw [hflush]
    simp only [HomeBridgeService.update]
    exact mapMerge_lookup _ _ _ _ (mapSet_keysNodup _ _ _ hn)
      (mapSet_lookup_self _ _ _)

/-- Witness for C8 at the local-only publisher. -/
theorem C8_witness :
    ((hbLocal.update "temperature" 21).flushCycle netOkAll).2 = [] ∧
    ((hbLocal.update "temperature" 21).flushCycle
        netOkAll).1.sensors.lookup "temperature" = some 21 :=
  C8_empty_url_local_only hbLocal netOkAll "temperature" 21 rfl
    (by simp [keysNodup, hbLocal]) (by simp [keysNodup, hbLocal])

end IAQ
